import Mathlib

/-!
Verification development for the Agent Resurrection Protocol core
(`src/arp/core.py`): the checkpoint data model (`AgentCheckpoint`), the
multi-tier storage backend (`DecentralizedStorage`) and the lifecycle
manager (`AgentResurrection`), shallowly embedded in Lean.

Conventions of the embedding:
* Python dicts of JSON-serialisable values become association lists over a
  `Json` value type; `json.dumps(..., sort_keys=True)` becomes `Json.dumps`,
  which prints object entries in sorted key order (sorting the key/value
  pairs after serialising each value prints the same string as sorting the
  keys first, since serialising an entry leaves its key unchanged).
* `hashlib.sha256(...).hexdigest()` is implemented bit-for-bit as SHA-256
  over byte lists (`Nat` bytes, arithmetic mod 2^32), so every hash in the
  model is the digest the Python code computes.
* File and cache writes become explicit state passing; a fallible file
  write is driven by an explicit success flag, and a Python exception is
  an `Option`-valued result (`none` = the call raised), with the state
  mutations performed before the raise kept, as in Python.
* Wall-clock timestamps are explicit `now` arguments.
-/

namespace ARP

/-- JSON-serialisable values (the payloads stored in checkpoint fields). -/
inductive Json where
  | str : String → Json
  | num : Int → Json
  | arr : List Json → Json
  | obj : List (String × Json) → Json
deriving Repr

/-- Python `json.dumps` escaping for the characters that can occur in this
program's data: backslash and double quote (no control characters occur). -/
def jsonEscapeChar (c : Char) : String :=
  if c = '\\' then "\\\\"
  else if c = '"' then "\\\""
  else String.singleton c

def jsonEscape (s : String) : String :=
  String.join (s.data.map jsonEscapeChar)

/-- Lexicographic comparison of code-point lists: Python's `str` order,
the order `sort_keys=True` sorts object keys in. -/
def lexLe : List Char → List Char → Bool
  | [], _ => true
  | _ :: _, [] => false
  | a :: as, b :: bs =>
      if a.toNat < b.toNat then true
      else if b.toNat < a.toNat then false
      else lexLe as bs

/-- Key order used by `sort_keys=True`: compare entries by their key. -/
def keyLE (a b : String × String) : Prop := lexLe a.1.data b.1.data = true

instance : DecidableRel keyLE := fun _ _ => inferInstanceAs (Decidable (_ = true))

theorem lexLe_total : ∀ a b : List Char, lexLe a b = true ∨ lexLe b a = true
  | [], _ => Or.inl rfl
  | _ :: _, [] => Or.inr rfl
  | a :: as, b :: bs => by
      rcases Nat.lt_trichotomy a.toNat b.toNat with h | h | h
      · exact Or.inl (by simp [lexLe, h])
      · rcases lexLe_total as bs with ih | ih
        · exact Or.inl (by simp [lexLe, h, ih])
        · exact Or.inr (by simp [lexLe, h.symm, ih])
      · exact Or.inr (by simp [lexLe, h])

theorem lexLe_trans : ∀ a b c : List Char,
    lexLe a b = true → lexLe b c = true → lexLe a c = true
  | [], _, _ => by intro _ _; rfl
  | _ :: _, [], _ => by intro h _; exact absurd h (by simp [lexLe])
  | _ :: _, _ :: _, [] => by intro _ h; exact absurd h (by simp [lexLe])
  | a :: as, b :: bs, c :: cs => by
      intro hab hbc
      simp only [lexLe] at hab hbc ⊢
      by_cases h1 : a.toNat < b.toNat
      · by_cases h3 : b.toNat < c.toNat
        · rw [if_pos (show a.toNat < c.toNat by omega)]
        · by_cases h4 : c.toNat < b.toNat
          · rw [if_neg h3, if_pos h4] at hbc
            exact absurd hbc (by simp)
          · rw [if_pos (show a.toNat < c.toNat by omega)]
      · by_cases h2 : b.toNat < a.toNat
        · rw [if_neg h1, if_pos h2] at hab
          exact absurd hab (by simp)
        · rw [if_neg h1, if_neg h2] at hab
          by_cases h3 : b.toNat < c.toNat
          · rw [if_pos (show a.toNat < c.toNat by omega)]
          · by_cases h4 : c.toNat < b.toNat
            · rw [if_neg h3, if_pos h4] at hbc
              exact absurd hbc (by simp)
            · rw [if_neg h3, if_neg h4] at hbc
              rw [if_neg (show ¬ a.toNat < c.toNat by omega),
                  if_neg (show ¬ c.toNat < a.toNat by omega)]
              exact lexLe_trans as bs cs hab hbc

theorem lexLe_antisymm : ∀ a b : List Char,
    lexLe a b = true → lexLe b a = true → a = b
  | [], [] => by intro _ _; rfl
  | [], _ :: _ => by intro _ h; exact absurd h (by simp [lexLe])
  | _ :: _, [] => by intro h _; exact absurd h (by simp [lexLe])
  | a :: as, b :: bs => by
      intro hab hba
      simp only [lexLe] at hab hba
      by_cases h1 : a.toNat < b.toNat
      · rw [if_neg (show ¬ b.toNat < a.toNat by omega), if_pos h1] at hba
        exact absurd hba (by simp)
      · by_cases h2 : b.toNat < a.toNat
        · rw [if_neg h1, if_pos h2] at hab
          exact absurd hab (by simp)
        · rw [if_neg h1, if_neg h2] at hab
          rw [if_neg h2, if_neg h1] at hba
          have hn : a.toNat = b.toNat := by omega
          have hc : a = b := Char.ext (UInt32.ext hn)
          subst hc
          exact congrArg (a :: ·) (lexLe_antisymm as bs hab hba)

instance : IsTotal (String × String) keyLE := ⟨fun a b => lexLe_total a.1.data b.1.data⟩

instance : IsTrans (String × String) keyLE :=
  ⟨fun _ _ _ h₁ h₂ => lexLe_trans _ _ _ h₁ h₂⟩

/-- Sort serialised object entries by key (Python's `sort_keys=True`). -/
def sortPairs (l : List (String × String)) : List (String × String) :=
  List.insertionSort keyLE l

/-- One serialised object entry, `"key": value` (Python's default `": "`
separator). -/
def objEntry (p : String × String) : String :=
  "\"" ++ jsonEscape p.1 ++ "\": " ++ p.2

mutual

/-- Model of `json.dumps(v, sort_keys=True)` with Python's default separators. -/
def Json.dumps : Json → String
  | .str s => "\"" ++ jsonEscape s ++ "\""
  | .num n => toString n
  | .arr xs => "[" ++ String.intercalate ", " (dumpsList xs) ++ "]"
  | .obj kvs =>
      "\x7b" ++ String.intercalate ", " ((sortPairs (dumpsPairs kvs)).map objEntry) ++ "\x7d"

/-- Serialise each element of a JSON array. -/
def dumpsList : List Json → List String
  | [] => []
  | x :: xs => Json.dumps x :: dumpsList xs

/-- Serialise each value of a JSON object, keeping its key. -/
def dumpsPairs : List (String × Json) → List (String × String)
  | [] => []
  | kv :: kvs => (kv.1, Json.dumps kv.2) :: dumpsPairs kvs

end

/-! ### SHA-256 (the `hashlib.sha256` the source calls), over `Nat` bytes -/

/-- Truncate to a 32-bit word. -/
def w32 (n : Nat) : Nat := n % 4294967296

/-- 32-bit modular addition. -/
def wadd (a b : Nat) : Nat := (a + b) % 4294967296

/-- Rotate a 32-bit word right by `k`. -/
def rotr (k n : Nat) : Nat := w32 (n / 2 ^ k + n % 2 ^ k * 2 ^ (32 - k))

/-- Shift a 32-bit word right by `k`. -/
def shr (k n : Nat) : Nat := n / 2 ^ k

/-- Bitwise complement of a 32-bit word. -/
def wnot (n : Nat) : Nat := Nat.xor (w32 n) 4294967295

def bigSigma0 (x : Nat) : Nat := Nat.xor (rotr 2 x) (Nat.xor (rotr 13 x) (rotr 22 x))
def bigSigma1 (x : Nat) : Nat := Nat.xor (rotr 6 x) (Nat.xor (rotr 11 x) (rotr 25 x))
def smallSigma0 (x : Nat) : Nat := Nat.xor (rotr 7 x) (Nat.xor (rotr 18 x) (shr 3 x))
def smallSigma1 (x : Nat) : Nat := Nat.xor (rotr 17 x) (Nat.xor (rotr 19 x) (shr 10 x))
def chFn (e f g : Nat) : Nat := Nat.xor (Nat.land e f) (Nat.land (wnot e) g)
def majFn (a b c : Nat) : Nat := Nat.xor (Nat.land a b) (Nat.xor (Nat.land a c) (Nat.land b c))

/-- The SHA-256 round constants. -/
def sha256K : List Nat :=
  [1116352408, 1899447441, 3049323471, 3921009573, 961987163, 1508970993,
   2453635748, 2870763221, 3624381080, 310598401, 607225278, 1426881987,
   1925078388, 2162078206, 2614888103, 3248222580, 3835390401, 4022224774,
   264347078, 604807628, 770255983, 1249150122, 1555081692, 1996064986,
   2554220882, 2821834349, 2952996808, 3210313671, 3336571891, 3584528711,
   113926993, 338241895, 666307205, 773529912, 1294757372, 1396182291,
   1695183700, 1986661051, 2177026350, 2456956037, 2730485921, 2820302411,
   3259730800, 3345764771, 3516065817, 3600352804, 4094571909, 275423344,
   430227734, 506948616, 659060556, 883997877, 958139571, 1322822218,
   1537002063, 1747873779, 1955562222, 2024104815, 2227730452, 2361852424,
   2428436474, 2756734187, 3204031479, 3329325298]

/-- The SHA-256 initial hash value. -/
def sha256H0 : List Nat :=
  [0x6a09e667, 0xbb67ae85, 0x3c6ef372, 0xa54ff53a, 0x510e527f, 0x9b05688c, 0x1f83d9ab, 0x5be0cd19]

/-- Big-endian 8-byte encoding of a length in bits. -/
def be64 (n : Nat) : List Nat :=
  [n / 2 ^ 56 % 256, n / 2 ^ 48 % 256, n / 2 ^ 40 % 256, n / 2 ^ 32 % 256,
   n / 2 ^ 24 % 256, n / 2 ^ 16 % 256, n / 2 ^ 8 % 256, n % 256]

/-- SHA-256 padding: `0x80`, zeros to 56 mod 64, then the bit length. -/
def padMessage (msg : List Nat) : List Nat :=
  msg ++ 128 :: List.replicate ((119 - msg.length % 64) % 64) 0 ++ be64 (8 * msg.length)

/-- Split a byte list into 64-byte blocks; the fuel argument (an upper
bound on the number of blocks) makes the recursion structural. -/
def splitBlocksGo : Nat → List Nat → List (List Nat)
  | 0, _ => []
  | _, [] => []
  | fuel + 1, b :: rest => (b :: rest).take 64 :: splitBlocksGo fuel ((b :: rest).drop 64)

/-- Split a byte list into 64-byte blocks. -/
def splitBlocks (l : List Nat) : List (List Nat) := splitBlocksGo l.length l

/-- Pack bytes into big-endian 32-bit words. -/
def toWords : List Nat → List Nat
  | b0 :: b1 :: b2 :: b3 :: rest => (((b0 * 256 + b1) * 256 + b2) * 256 + b3) :: toWords rest
  | _ => []

/-- Extend the 16 message words to the 64-entry message schedule. -/
def extendSchedule (w : List Nat) : List Nat :=
  (List.range 48).foldl
    (fun w _ =>
      let t := w.length
      w ++ [wadd (wadd (w.getD (t - 16) 0) (smallSigma0 (w.getD (t - 15) 0)))
                 (wadd (w.getD (t - 7) 0) (smallSigma1 (w.getD (t - 2) 0)))])
    w

/-- One SHA-256 compression round. -/
def sha256Round (st : List Nat) (kw : Nat × Nat) : List Nat :=
  match st with
  | [a, b, c, d, e, f, g, h] =>
      let t1 := wadd h (wadd (bigSigma1 e) (wadd (chFn e f g) (wadd kw.1 kw.2)))
      let t2 := wadd (bigSigma0 a) (majFn a b c)
      [wadd t1 t2, a, b, c, wadd d t1, e, f, g]
  | other => other

/-- Compress one 64-byte block into the running hash state. -/
def sha256Block (h : List Nat) (block : List Nat) : List Nat :=
  let w := extendSchedule (toWords block)
  let fin := (sha256K.zip w).foldl sha256Round h
  List.zipWith wadd h fin

def hexDigit (d : Nat) : Char := "0123456789abcdef".data.getD d '0'

/-- Lower-case hexadecimal rendering of a 32-bit word, 8 digits. -/
def hex8 (n : Nat) : List Char :=
  (List.range 8).map (fun i => hexDigit (n / 16 ^ (7 - i) % 16))

/-- The characters of `hashlib.sha256(bytes).hexdigest()`. -/
def sha256hexChars (msg : List Nat) : List Char :=
  (((splitBlocks (padMessage msg)).foldl sha256Block sha256H0).map hex8).flatten

/-- Model of `hashlib.sha256(bytes).hexdigest()`: the 64-character hex digest. -/
def sha256hex (msg : List Nat) : String :=
  String.mk (sha256hexChars msg)

/-- UTF-8 encoding of one character, as `Nat` bytes. -/
def utf8Char (c : Char) : List Nat :=
  let n := c.toNat
  if n < 128 then [n]
  else if n < 2048 then [192 + n / 64, 128 + n % 64]
  else if n < 65536 then [224 + n / 4096, 128 + n / 64 % 64, 128 + n % 64]
  else [240 + n / 262144, 128 + n / 4096 % 64, 128 + n / 64 % 64, 128 + n % 64]

/-- Model of `str.encode()`: UTF-8 bytes of a string. -/
def utf8 (s : String) : List Nat :=
  s.data.foldr (fun c acc => utf8Char c ++ acc) []

/-- Model of `hashlib.sha256(s.encode()).hexdigest()[:16]`, the truncated digest the
source uses both for `state_hash` and for the memory checksum (Python's
`[:16]` slices the first 16 code points). -/
def sha256_16 (s : String) : String :=
  String.mk ((sha256hexChars (utf8 s)).take 16)

/-! ### The checkpoint data model (`AgentCheckpoint`) -/

/-- The `AgentCheckpoint` dataclass. A stored copy is the record itself:
`asdict` followed by `json.dumps`/`json.loads`/`AgentCheckpoint(**data)`
round-trips every field unchanged. -/
structure AgentCheckpoint where
  agent_id : String
  sequence : Nat
  timestamp : String
  state_hash : String
  identity : List (String × Json)
  memory : List (String × Json)
  tasks : List (String × Json)
  context : List (String × Json)
  storage : List (String × String)
deriving Repr

/-- Model of `AgentCheckpoint.compute_hash`: truncated SHA-256 of the sorted-keys
JSON serialisation of the five hashed fields. -/
def AgentCheckpoint.compute_hash (c : AgentCheckpoint) : String :=
  sha256_16 (Json.dumps (.obj
    [("agent_id", .str c.agent_id),
     ("sequence", .num c.sequence),
     ("identity", .obj c.identity),
     ("memory", .obj c.memory),
     ("tasks", .obj c.tasks)]))

/-! ### Storage state -/

/-- Association-list lookup (a Python `dict` read / `in` test). -/
def lookupKey {K V : Type} [DecidableEq K] (l : List (K × V)) (k : K) : Option V :=
  (l.find? (fun p => p.1 = k)).map (·.2)

/-- Association-list overwrite (a Python `dict` assignment / file overwrite). -/
def setKey {K V : Type} [DecidableEq K] (l : List (K × V)) (k : K) (v : V) : List (K × V) :=
  (k, v) :: l.filter (fun p => ¬ p.1 = k)

/-- The `./checkpoints` directory, shared by every `DecentralizedStorage`
instance: `{agent_id}_hot.json` files and `{agent_id}_{sequence}.json`
cold files, each holding one serialised record. -/
structure CheckpointsDir where
  hot_files : List (String × AgentCheckpoint)
  cold_files : List ((String × Nat) × AgentCheckpoint)
deriving Repr

/-- One `DecentralizedStorage` instance: its in-memory `hot_cache` dict.
The file tiers live in the shared `CheckpointsDir`. -/
structure DecentralizedStorage where
  hot_cache : List (String × AgentCheckpoint)
deriving Repr

/-- Constructor `DecentralizedStorage()`: fresh empty cache. -/
def DecentralizedStorage.init : DecentralizedStorage := ⟨[]⟩

/-- Success flags for the two fallible file writes inside `save_checkpoint`;
`false` means that `write_text` raises. The in-memory cache assignment
cannot fail. -/
structure WriteFlags where
  hot_file_ok : Bool
  cold_file_ok : Bool
deriving Repr

/-- Both writes succeed. -/
def WriteFlags.ok : WriteFlags := ⟨true, true⟩

/-- The locator map `save_checkpoint` returns: one locator per tier. -/
def tierLocators (c : AgentCheckpoint) : List (String × String) :=
  [("hot", "file://checkpoints/" ++ c.agent_id ++ "_hot.json"),
   ("cold", "file://checkpoints/" ++ c.agent_id ++ "_" ++ toString c.sequence ++ ".json"),
   ("ipfs", "ipfs://Qm" ++ c.state_hash ++ "..."),
   ("arweave", "arweave://" ++ c.state_hash ++ "...")]

/-- Model of `DecentralizedStorage.save_checkpoint`: write the record to the hot
cache, the hot file and the cold file, in that order, and return the
locator map. `none` in the result means the call raised; the state parts of
the result then hold the mutations made before the raise (the Python
exception does not roll them back). -/
def DecentralizedStorage.save_checkpoint (st : DecentralizedStorage) (dir : CheckpointsDir)
    (c : AgentCheckpoint) (wf : WriteFlags) :
    (DecentralizedStorage × CheckpointsDir) × Option (List (String × String)) :=
  let st' : DecentralizedStorage := ⟨setKey st.hot_cache c.agent_id c⟩
  if wf.hot_file_ok = false then ((st', dir), none)
  else
    let dir1 : CheckpointsDir := { dir with hot_files := setKey dir.hot_files c.agent_id c }
    if wf.cold_file_ok = false then ((st', dir1), none)
    else
      let dir2 : CheckpointsDir :=
        { dir1 with cold_files := setKey dir1.cold_files (c.agent_id, c.sequence) c }
      ((st', dir2), some (tierLocators c))

/-- Model of `DecentralizedStorage.load_checkpoint`: consult the in-memory hot cache,
then the hot file; `none` is the "no checkpoint" result. The cold tier is
not consulted. -/
def DecentralizedStorage.load_checkpoint (st : DecentralizedStorage) (dir : CheckpointsDir)
    (agent_id : String) : Option AgentCheckpoint :=
  match lookupKey st.hot_cache agent_id with
  | some c => some c
  | none => lookupKey dir.hot_files agent_id

/-! ### The lifecycle manager (`AgentResurrection`) -/

/-- The attached executor (`self.agent`). The source only ever calls
`agent.execute(task)` (when present); the `exposed_*` fields model, from
the spec's words, the identity/memory/tasks/context state the executor
"currently exposes", which the spec's checkpoint-construction contract
says each checkpoint must snapshot. -/
structure Executor where
  run : Option (Json → Json)
  exposed_identity : List (String × Json)
  exposed_memory : List (String × Json)
  exposed_tasks : List (String × Json)
  exposed_context : List (String × Json)

/-- One `AgentResurrection` manager instance. -/
structure AgentResurrection where
  agent : Option Executor
  agent_id : String
  storage : DecentralizedStorage
  checkpoint_interval : Nat
  sequence : Nat
  checkpoints_saved : Nat

/-- The `AgentResurrection` constructor with an explicit `agent_id` and a
fresh storage instance (`storage or DecentralizedStorage()`). -/
def AgentResurrection.mk' (agent : Option Executor) (agent_id : String) : AgentResurrection :=
  { agent := agent, agent_id := agent_id, storage := DecentralizedStorage.init,
    checkpoint_interval := 300, sequence := 0, checkpoints_saved := 0 }

/-- Constant `hashlib.sha256(b"memory").hexdigest()[:16]`, the fixed checksum the
source puts in every checkpoint's `memory` field. -/
def memoryChecksum : String := sha256_16 "memory"

/-- The record `AgentResurrection.checkpoint` builds before saving: the
placeholder snapshot fields, the current sequence, and the computed hash
(`storage` still empty; the locator map is assigned only after the save). -/
def AgentResurrection.checkpointRecord (m : AgentResurrection) (now : String) : AgentCheckpoint :=
  let c0 : AgentCheckpoint :=
    { agent_id := m.agent_id, sequence := m.sequence, timestamp := now, state_hash := "",
      identity := [("public_key", .str ("pk_" ++ m.agent_id)), ("address", .str m.agent_id)],
      memory := [("short_term", .arr []), ("checksum", .str memoryChecksum)],
      tasks := [("active", .arr []), ("queued", .arr [])],
      context := [("session_id", .str ("sess_" ++ toString m.sequence))],
      storage := [] }
  { c0 with state_hash := c0.compute_hash }

/-- Model of `AgentResurrection.checkpoint`: build the record with the current
sequence, fill in its hash, save it, store the locator map in the record,
then increment the counter. A failed save raises: the counter is not
incremented and no record is returned, but the mutations the save made
before raising remain. -/
def AgentResurrection.checkpoint (m : AgentResurrection) (dir : CheckpointsDir)
    (now : String) (wf : WriteFlags) :
    (AgentResurrection × CheckpointsDir) × Option AgentCheckpoint :=
  let c1 := m.checkpointRecord now
  match m.storage.save_checkpoint dir c1 wf with
  | ((st', dir'), none) => (({ m with storage := st' }, dir'), none)
  | ((st', dir'), some locs) =>
      let m' := { m with storage := st', sequence := m.sequence + 1,
                         checkpoints_saved := m.checkpoints_saved + 1 }
      ((m', dir'), some { c1 with storage := locs })

/-- Model of `AgentResurrection.load` (resurrection): a fresh storage instance, load
the latest record, and rebuild a manager with `sequence = loaded + 1`;
`none` is the `ValueError` on a missing checkpoint. -/
def AgentResurrection.load (dir : CheckpointsDir) (agent_id : String) :
    Option AgentResurrection :=
  let storage := DecentralizedStorage.init
  (storage.load_checkpoint dir agent_id).map (fun c =>
    { agent := none, agent_id := agent_id, storage := storage,
      checkpoint_interval := 300, sequence := c.sequence + 1, checkpoints_saved := 0 })

/-- Model of `AgentResurrection.execute`: run the attached executor (or produce the
stub result), then checkpoint. A failed checkpoint raises, so no result is
returned. -/
def AgentResurrection.execute (m : AgentResurrection) (dir : CheckpointsDir)
    (task : Json) (now : String) (wf : WriteFlags) :
    (AgentResurrection × CheckpointsDir) × Option Json :=
  let result :=
    match m.agent with
    | some e =>
        match e.run with
        | some f => f task
        | none => Json.obj [("status", .str "executed"), ("task", task)]
    | none => Json.obj [("status", .str "executed"), ("task", task)]
  let r := m.checkpoint dir now wf
  (r.1, r.2.map (fun _ => result))

/-- Model of `AgentResurrection.hibernate`: exactly `checkpoint` (plus a log line),
returning the final record. -/
def AgentResurrection.hibernate (m : AgentResurrection) (dir : CheckpointsDir)
    (now : String) (wf : WriteFlags) :
    (AgentResurrection × CheckpointsDir) × Option AgentCheckpoint :=
  m.checkpoint dir now wf

/-! ### Lifecycle traces

One agent's lifetime: any interleaving of `execute`, `hibernate` and
`resurrect` on a single live manager (operations on one manager are
serialized, per the spec's concurrency model). Failed writes are allowed
at any step. `produced` collects, oldest first, the records returned by
the successful checkpoint saves — the agent's checkpoints. -/

inductive LifecycleOp where
  | exec (task : Json) (now : String) (wf : WriteFlags)
  | hib (now : String) (wf : WriteFlags)
  | res

structure TraceState where
  mgr : AgentResurrection
  dir : CheckpointsDir
  produced : List AgentCheckpoint

/-- One lifecycle step. `exec`/`hib` run the manager operation (its state
effect is its `checkpoint` call); `res` replaces the live manager by
`AgentResurrection.load` of its agent id, or keeps the state unchanged if
the load raises. -/
def stepOp (s : TraceState) : LifecycleOp → TraceState
  | .exec task now wf =>
      let r := s.mgr.execute s.dir task now wf
      let c := (s.mgr.checkpoint s.dir now wf).2
      { mgr := r.1.1, dir := r.1.2, produced := s.produced ++ c.toList }
  | .hib now wf =>
      let r := s.mgr.hibernate s.dir now wf
      { mgr := r.1.1, dir := r.1.2, produced := s.produced ++ r.2.toList }
  | .res =>
      match AgentResurrection.load s.dir s.mgr.agent_id with
      | some m' => { s with mgr := m' }
      | none => s

def runOps (s : TraceState) (ops : List LifecycleOp) : TraceState :=
  ops.foldl stepOp s

/-- A fresh agent: new manager at sequence 0 over an empty checkpoint
directory. -/
def initTrace (aid : String) : TraceState :=
  { mgr := .mk' none aid, dir := ⟨[], []⟩, produced := [] }

/-! ### Association-list lemmas -/

theorem lookupKey_nil {K V : Type} [DecidableEq K] (k : K) :
    lookupKey ([] : List (K × V)) k = none := rfl

theorem lookupKey_setKey_self {K V : Type} [DecidableEq K] (l : List (K × V)) (k : K) (v : V) :
    lookupKey (setKey l k v) k = some v := by
  simp [lookupKey, setKey]

theorem lookupKey_setKey_ne {K V : Type} [DecidableEq K] (l : List (K × V)) (k k' : K) (v : V)
    (h : k' ≠ k) : lookupKey (setKey l k v) k' = lookupKey l k' := by
  simp only [lookupKey, setKey]
  rw [List.find?_cons_of_neg _ (by simpa using fun hk => h hk.symm)]
  induction l with
  | nil => rfl
  | cons p ps ih =>
      by_cases hp : p.1 = k
      · rw [List.filter_cons_of_neg (by simpa using hp),
            List.find?_cons_of_neg _ (by simpa using fun hk => h (hk.symm.trans hp))]
        exact ih
      · rw [List.filter_cons_of_pos (by simpa using hp)]
        by_cases hm : p.1 = k'
        · rw [List.find?_cons_of_pos _ (by simpa using hm),
              List.find?_cons_of_pos _ (by simpa using hm)]
        · rw [List.find?_cons_of_neg _ (by simpa using hm),
              List.find?_cons_of_neg _ (by simpa using hm)]
          exact ih

theorem mem_setKey {K V : Type} [DecidableEq K] {l : List (K × V)} {k : K} {v : V}
    {p : K × V} (h : p ∈ setKey l k v) : p = (k, v) ∨ p ∈ l := by
  rcases List.mem_cons.mp h with h' | h'
  · exact Or.inl h'
  · exact Or.inr (List.mem_of_mem_filter h')

theorem lookupKey_mem {K V : Type} [DecidableEq K] {l : List (K × V)} {k : K} {v : V}
    (h : lookupKey l k = some v) : (k, v) ∈ l := by
  simp only [lookupKey, Option.map_eq_some'] at h
  obtain ⟨p, hp, hv⟩ := h
  have hk := List.find?_some hp
  have hm := List.mem_of_find?_eq_some hp
  simp at hk
  rw [← hk, ← hv]
  exact hm

/-! ### Case equations for save and checkpoint -/

theorem save_checkpoint_ok (st : DecentralizedStorage) (dir : CheckpointsDir)
    (c : AgentCheckpoint) :
    st.save_checkpoint dir c ⟨true, true⟩ =
      ((⟨setKey st.hot_cache c.agent_id c⟩,
        ⟨setKey dir.hot_files c.agent_id c, setKey dir.cold_files (c.agent_id, c.sequence) c⟩),
       some (tierLocators c)) := rfl

theorem save_checkpoint_hotfail (st : DecentralizedStorage) (dir : CheckpointsDir)
    (c : AgentCheckpoint) (b : Bool) :
    st.save_checkpoint dir c ⟨false, b⟩ =
      ((⟨setKey st.hot_cache c.agent_id c⟩, dir), none) := rfl

theorem save_checkpoint_coldfail (st : DecentralizedStorage) (dir : CheckpointsDir)
    (c : AgentCheckpoint) :
    st.save_checkpoint dir c ⟨true, false⟩ =
      ((⟨setKey st.hot_cache c.agent_id c⟩,
        { dir with hot_files := setKey dir.hot_files c.agent_id c }), none) := rfl

theorem checkpointRecord_agent_id (m : AgentResurrection) (now : String) :
    (m.checkpointRecord now).agent_id = m.agent_id := rfl

theorem checkpointRecord_sequence (m : AgentResurrection) (now : String) :
    (m.checkpointRecord now).sequence = m.sequence := rfl

theorem checkpointRecord_storage (m : AgentResurrection) (now : String) :
    (m.checkpointRecord now).storage = [] := rfl

theorem checkpoint_ok (m : AgentResurrection) (dir : CheckpointsDir) (now : String) :
    m.checkpoint dir now ⟨true, true⟩ =
      (({ m with storage := ⟨setKey m.storage.hot_cache m.agent_id (m.checkpointRecord now)⟩,
                 sequence := m.sequence + 1, checkpoints_saved := m.checkpoints_saved + 1 },
        ⟨setKey dir.hot_files m.agent_id (m.checkpointRecord now),
         setKey dir.cold_files (m.agent_id, m.sequence) (m.checkpointRecord now)⟩),
       some { m.checkpointRecord now with
              storage := tierLocators (m.checkpointRecord now) }) := rfl

theorem checkpoint_hotfail (m : AgentResurrection) (dir : CheckpointsDir) (now : String)
    (b : Bool) :
    m.checkpoint dir now ⟨false, b⟩ =
      (({ m with storage := ⟨setKey m.storage.hot_cache m.agent_id (m.checkpointRecord now)⟩ },
        dir), none) := rfl

theorem checkpoint_coldfail (m : AgentResurrection) (dir : CheckpointsDir) (now : String) :
    m.checkpoint dir now ⟨true, false⟩ =
      (({ m with storage := ⟨setKey m.storage.hot_cache m.agent_id (m.checkpointRecord now)⟩ },
        { dir with hot_files := setKey dir.hot_files m.agent_id (m.checkpointRecord now) }),
       none) := rfl

theorem execute_state (m : AgentResurrection) (dir : CheckpointsDir) (task : Json)
    (now : String) (wf : WriteFlags) :
    (m.execute dir task now wf).1 = (m.checkpoint dir now wf).1 := rfl

theorem hibernate_eq_checkpoint (m : AgentResurrection) (dir : CheckpointsDir)
    (now : String) (wf : WriteFlags) :
    m.hibernate dir now wf = m.checkpoint dir now wf := rfl

theorem load_eq (dir : CheckpointsDir) (aid : String) :
    AgentResurrection.load dir aid =
      (lookupKey dir.hot_files aid).map (fun c =>
        { agent := none, agent_id := aid, storage := DecentralizedStorage.init,
          checkpoint_interval := 300, sequence := c.sequence + 1,
          checkpoints_saved := 0 }) := rfl

/-! ### Sequence-ordering invariant (for the strict-monotonicity claim) -/

/-- Invariant tying the produced checkpoints, the live manager's counter
and the agent's hot file together along a lifecycle trace. -/
def SeqInv (aid : String) (s : TraceState) : Prop :=
  s.mgr.agent_id = aid ∧
  s.produced.Pairwise (fun a b => a.sequence < b.sequence) ∧
  (∀ c ∈ s.produced, c.sequence < s.mgr.sequence) ∧
  (∀ h, lookupKey s.dir.hot_files aid = some h →
      h.sequence ≤ s.mgr.sequence ∧ ∀ c ∈ s.produced, c.sequence ≤ h.sequence) ∧
  (lookupKey s.dir.hot_files aid = none → s.produced = [])

theorem seqInv_init (aid : String) : SeqInv aid (initTrace aid) :=
  ⟨rfl, List.Pairwise.nil, fun c hc => absurd hc (List.not_mem_nil c),
   fun _ hh => Option.noConfusion hh, fun _ => rfl⟩

theorem seqInv_checkpoint (aid : String) (m : AgentResurrection) (dir : CheckpointsDir)
    (P : List AgentCheckpoint) (now : String) (wf : WriteFlags)
    (h : SeqInv aid ⟨m, dir, P⟩) :
    SeqInv aid ⟨(m.checkpoint dir now wf).1.1, (m.checkpoint dir now wf).1.2,
                P ++ ((m.checkpoint dir now wf).2).toList⟩ := by
  obtain ⟨hid, hpw, hlt, hhot, hnone⟩ := h
  simp only at hid hpw hlt hhot hnone
  have hsetSelf :
      lookupKey (setKey dir.hot_files m.agent_id (m.checkpointRecord now)) aid =
        some (m.checkpointRecord now) := by
    rw [← hid]; exact lookupKey_setKey_self _ _ _
  obtain ⟨ho, co⟩ := wf
  cases ho
  · rw [checkpoint_hotfail]
    exact ⟨hid, by simpa using hpw, by simpa using hlt, by simpa using hhot,
           by simpa using hnone⟩
  · cases co
    · rw [checkpoint_coldfail]
      refine ⟨hid, by simpa using hpw, by simpa using hlt, ?_, ?_⟩
      · intro hrec hh
        have hh' : lookupKey (setKey dir.hot_files m.agent_id (m.checkpointRecord now)) aid =
            some hrec := hh
        rw [hsetSelf] at hh'
        obtain rfl : m.checkpointRecord now = hrec := Option.some.inj hh'
        refine ⟨le_of_eq (checkpointRecord_sequence m now), ?_⟩
        intro c hc
        simp only [Option.toList_none, List.append_nil] at hc
        rw [checkpointRecord_sequence]
        exact le_of_lt (hlt c hc)
      · intro hh
        have hh' : lookupKey (setKey dir.hot_files m.agent_id (m.checkpointRecord now)) aid =
            none := hh
        rw [hsetSelf] at hh'
        exact absurd hh' (Option.noConfusion)
    · rw [checkpoint_ok]
      refine ⟨hid, ?_, ?_, ?_, ?_⟩
      · simp only [Option.toList_some]
        rw [List.pairwise_append]
        refine ⟨hpw, List.pairwise_singleton _ _, ?_⟩
        intro a ha b hb
        rw [List.mem_singleton.mp hb]
        exact hlt a ha
      · intro c hc
        simp only [Option.toList_some, List.mem_append, List.mem_singleton] at hc
        rcases hc with hc | hc
        · exact Nat.lt_succ_of_lt (hlt c hc)
        · rw [hc]; exact Nat.lt_succ_self m.sequence
      · intro hrec hh
        have hh' : lookupKey (setKey dir.hot_files m.agent_id (m.checkpointRecord now)) aid =
            some hrec := hh
        rw [hsetSelf] at hh'
        obtain rfl : m.checkpointRecord now = hrec := Option.some.inj hh'
        refine ⟨by rw [checkpointRecord_sequence]; exact Nat.le_succ _, ?_⟩
        intro c hc
        simp only [Option.toList_some, List.mem_append, List.mem_singleton] at hc
        rw [checkpointRecord_sequence]
        rcases hc with hc | hc
        · exact le_of_lt (hlt c hc)
        · rw [hc, checkpointRecord_sequence]
      · intro hh
        have hh' : lookupKey (setKey dir.hot_files m.agent_id (m.checkpointRecord now)) aid =
            none := hh
        rw [hsetSelf] at hh'
        exact absurd hh' (Option.noConfusion)

theorem seqInv_step (aid : String) (s : TraceState) (op : LifecycleOp)
    (h : SeqInv aid s) : SeqInv aid (stepOp s op) := by
  obtain ⟨m, dir, P⟩ := s
  cases op with
  | exec task now wf => exact seqInv_checkpoint aid m dir P now wf h
  | hib now wf => exact seqInv_checkpoint aid m dir P now wf h
  | res =>
      obtain ⟨hid, hpw, hlt, hhot, hnone⟩ := h
      show SeqInv aid (match AgentResurrection.load dir m.agent_id with
        | some m' => { mgr := m', dir := dir, produced := P }
        | none => ⟨m, dir, P⟩)
      rw [load_eq, hid]
      cases hh : lookupKey dir.hot_files aid with
      | none => exact ⟨hid, hpw, hlt, hhot, hnone⟩
      | some hrec =>
          simp only [Option.map_some']
          obtain ⟨hle, hall⟩ := hhot hrec hh
          refine ⟨rfl, hpw, ?_, ?_, ?_⟩
          · intro c hc
            exact Nat.lt_succ_of_le (hall c hc)
          · intro h' hh'
            rw [hh] at hh'
            obtain rfl : hrec = h' := Option.some.inj hh'
            exact ⟨Nat.le_succ_of_le (le_refl _), hall⟩
          · intro hh'
            rw [hh] at hh'
            exact absurd hh' (Option.noConfusion)

theorem seqInv_runOps (aid : String) (s : TraceState) (ops : List LifecycleOp)
    (h : SeqInv aid s) : SeqInv aid (runOps s ops) := by
  induction ops generalizing s with
  | nil => exact h
  | cons op ops ih => exact ih (stepOp s op) (seqInv_step aid s op h)

/-! ### Empty-storage-map invariant (for the persisted-copy claim) -/

/-- Every record copy held by any tier — the manager's in-memory hot
cache, the hot files and the cold files — has an empty `storage` map. -/
def StoredEmpty (s : TraceState) : Prop :=
  (∀ p ∈ s.mgr.storage.hot_cache, p.2.storage = []) ∧
  (∀ p ∈ s.dir.hot_files, p.2.storage = []) ∧
  (∀ p ∈ s.dir.cold_files, p.2.storage = [])

theorem storedEmpty_init (aid : String) : StoredEmpty (initTrace aid) :=
  ⟨fun p hp => absurd hp (List.not_mem_nil p),
   fun p hp => absurd hp (List.not_mem_nil p),
   fun p hp => absurd hp (List.not_mem_nil p)⟩

theorem mem_setKey_storage {K : Type} [DecidableEq K] {l : List (K × AgentCheckpoint)}
    {k : K} {v : AgentCheckpoint} {p : K × AgentCheckpoint}
    (hv : v.storage = []) (hl : ∀ q ∈ l, q.2.storage = [])
    (hp : p ∈ setKey l k v) : p.2.storage = [] := by
  rcases mem_setKey hp with h | h
  · rw [h]; exact hv
  · exact hl p h

theorem storedEmpty_checkpoint (m : AgentResurrection) (dir : CheckpointsDir)
    (P : List AgentCheckpoint) (now : String) (wf : WriteFlags)
    (h : StoredEmpty ⟨m, dir, P⟩) :
    StoredEmpty ⟨(m.checkpoint dir now wf).1.1, (m.checkpoint dir now wf).1.2,
                 P ++ ((m.checkpoint dir now wf).2).toList⟩ := by
  obtain ⟨hc, hh, hcold⟩ := h
  simp only at hc hh hcold
  have hrec : (m.checkpointRecord now).storage = [] := checkpointRecord_storage m now
  obtain ⟨ho, co⟩ := wf
  cases ho
  · rw [checkpoint_hotfail]
    exact ⟨fun p hp => mem_setKey_storage hrec hc hp, hh, hcold⟩
  · cases co
    · rw [checkpoint_coldfail]
      exact ⟨fun p hp => mem_setKey_storage hrec hc hp,
             fun p hp => mem_setKey_storage hrec hh hp, hcold⟩
    · rw [checkpoint_ok]
      exact ⟨fun p hp => mem_setKey_storage hrec hc hp,
             fun p hp => mem_setKey_storage hrec hh hp,
             fun p hp => mem_setKey_storage hrec hcold hp⟩

theorem storedEmpty_step (s : TraceState) (op : LifecycleOp)
    (h : StoredEmpty s) : StoredEmpty (stepOp s op) := by
  obtain ⟨m, dir, P⟩ := s
  cases op with
  | exec task now wf => exact storedEmpty_checkpoint m dir P now wf h
  | hib now wf => exact storedEmpty_checkpoint m dir P now wf h
  | res =>
      obtain ⟨hc, hh, hcold⟩ := h
      show StoredEmpty (match AgentResurrection.load dir m.agent_id with
        | some m' => { mgr := m', dir := dir, produced := P }
        | none => ⟨m, dir, P⟩)
      rw [load_eq]
      cases lookupKey dir.hot_files m.agent_id with
      | none => exact ⟨hc, hh, hcold⟩
      | some hrec =>
          exact ⟨fun p hp => absurd hp (List.not_mem_nil p), hh, hcold⟩

theorem storedEmpty_runOps (s : TraceState) (ops : List LifecycleOp)
    (h : StoredEmpty s) : StoredEmpty (runOps s ops) := by
  induction ops generalizing s with
  | nil => exact h
  | cons op ops ih => exact ih (stepOp s op) (storedEmpty_step s op h)

/-! ### Canonical serialisation: sorted keys are permutation-invariant -/

theorem string_data_inj {s t : String} (h : s.data = t.data) : s = t := by
  cases s; cases t; exact congrArg String.mk h

/-- Strict key order: below and with a different key. -/
def keyLT (a b : String × String) : Prop := keyLE a b ∧ a.1 ≠ b.1

instance : IsAntisymm (String × String) keyLT :=
  ⟨fun _ _ hab hba =>
    absurd (string_data_inj (lexLe_antisymm _ _ hab.1 hba.1)) hab.2⟩

theorem sorted_keyLT_of_sorted_nodup {l : List (String × String)}
    (hs : l.Sorted keyLE) (hn : (l.map Prod.fst).Nodup) : l.Sorted keyLT := by
  have hp : l.Pairwise (fun a b : String × String => a.1 ≠ b.1) :=
    (List.pairwise_map.mp hn)
  exact List.Pairwise.and hs hp

theorem sortPairs_eq_of_perm {l₁ l₂ : List (String × String)} (hp : l₁.Perm l₂)
    (hn : (l₁.map Prod.fst).Nodup) : sortPairs l₁ = sortPairs l₂ := by
  have hperm : (sortPairs l₁).Perm (sortPairs l₂) :=
    (List.perm_insertionSort keyLE l₁).trans
      (hp.trans (List.perm_insertionSort keyLE l₂).symm)
  have hn₁ : ((sortPairs l₁).map Prod.fst).Nodup :=
    ((List.perm_insertionSort keyLE l₁).map Prod.fst).nodup_iff.mpr hn
  have hn₂ : ((sortPairs l₂).map Prod.fst).Nodup :=
    (hperm.map Prod.fst).nodup_iff.mp hn₁
  exact List.eq_of_perm_of_sorted hperm
    (sorted_keyLT_of_sorted_nodup (List.sorted_insertionSort keyLE l₁) hn₁)
    (sorted_keyLT_of_sorted_nodup (List.sorted_insertionSort keyLE l₂) hn₂)

theorem dumpsPairs_eq_map (l : List (String × Json)) :
    dumpsPairs l = l.map (fun kv => (kv.1, Json.dumps kv.2)) := by
  induction l with
  | nil => rfl
  | cons kv kvs ih => rw [dumpsPairs, ih, List.map_cons]

theorem dumps_obj_eq (kvs : List (String × Json)) :
    Json.dumps (.obj kvs) =
      "\x7b" ++ String.intercalate ", " ((sortPairs (dumpsPairs kvs)).map objEntry) ++
        "\x7d" := rfl

theorem dumps_obj_congr {l₁ l₂ : List (String × Json)} (hp : l₁.Perm l₂)
    (hn : (l₁.map Prod.fst).Nodup) :
    Json.dumps (.obj l₁) = Json.dumps (.obj l₂) := by
  have h1 : (dumpsPairs l₁).Perm (dumpsPairs l₂) := by
    rw [dumpsPairs_eq_map, dumpsPairs_eq_map]
    exact hp.map _
  have hkeys : (dumpsPairs l₁).map Prod.fst = l₁.map Prod.fst := by
    rw [dumpsPairs_eq_map, List.map_map]
    rfl
  have h2 : sortPairs (dumpsPairs l₁) = sortPairs (dumpsPairs l₂) :=
    sortPairs_eq_of_perm h1 (by rw [hkeys]; exact hn)
  rw [dumps_obj_eq, dumps_obj_eq, h2]

/-- The hash depends on precisely the serialised content of the five
hashed fields: records that agree on `agent_id` and `sequence` and whose
`identity`/`memory`/`tasks` dicts are equal up to key order (keys
distinct, as in a Python dict) hash identically. -/
theorem compute_hash_perm (r₁ r₂ : AgentCheckpoint)
    (hid : r₁.agent_id = r₂.agent_id) (hseq : r₁.sequence = r₂.sequence)
    (hI : r₁.identity.Perm r₂.identity) (hM : r₁.memory.Perm r₂.memory)
    (hT : r₁.tasks.Perm r₂.tasks)
    (hIn : (r₁.identity.map Prod.fst).Nodup) (hMn : (r₁.memory.map Prod.fst).Nodup)
    (hTn : (r₁.tasks.map Prod.fst).Nodup) :
    r₁.compute_hash = r₂.compute_hash := by
  have eI : Json.dumps (.obj r₁.identity) = Json.dumps (.obj r₂.identity) :=
    dumps_obj_congr hI hIn
  have eM : Json.dumps (.obj r₁.memory) = Json.dumps (.obj r₂.memory) :=
    dumps_obj_congr hM hMn
  have eT : Json.dumps (.obj r₁.tasks) = Json.dumps (.obj r₂.tasks) :=
    dumps_obj_congr hT hTn
  have hlist :
      dumpsPairs [("agent_id", .str r₁.agent_id), ("sequence", .num r₁.sequence),
                  ("identity", .obj r₁.identity), ("memory", .obj r₁.memory),
                  ("tasks", .obj r₁.tasks)] =
      dumpsPairs [("agent_id", .str r₂.agent_id), ("sequence", .num r₂.sequence),
                  ("identity", .obj r₂.identity), ("memory", .obj r₂.memory),
                  ("tasks", .obj r₂.tasks)] := by
    rw [dumpsPairs_eq_map, dumpsPairs_eq_map]
    simp only [List.map_cons, List.map_nil]
    rw [hid, hseq, eI, eM, eT]
  show sha256_16 _ = sha256_16 _
  rw [dumps_obj_eq, dumps_obj_eq, hlist]

/-! ### Shape of the truncated digest -/

theorem getD_mem_of_default_mem {α : Type} (l : List α) (n : Nat) (d : α) (hd : d ∈ l) :
    l.getD n d ∈ l := by
  rcases Nat.lt_or_ge n l.length with h | h
  · rw [List.getD_eq_getElem l d h]
    exact List.getElem_mem h
  · rw [List.getD_eq_default l d h]
    exact hd

/-- The lower-case hexadecimal alphabet. -/
def hexAlphabet : List Char := "0123456789abcdef".data

theorem hexDigit_mem (d : Nat) : hexDigit d ∈ hexAlphabet :=
  getD_mem_of_default_mem _ d '0' (by decide)

theorem hex8_length (n : Nat) : (hex8 n).length = 8 := by
  rw [hex8, List.length_map, List.length_range]

theorem hex8_mem {n : Nat} {c : Char} (hc : c ∈ hex8 n) : c ∈ hexAlphabet := by
  rw [hex8] at hc
  obtain ⟨i, _, rfl⟩ := List.mem_map.mp hc
  exact hexDigit_mem _

theorem sha256Round_length (st : List Nat) (kw : Nat × Nat) :
    (sha256Round st kw).length = st.length := by
  unfold sha256Round
  split
  · simp
  · rfl

theorem foldl_sha256Round_length (l : List (Nat × Nat)) (st : List Nat) :
    (l.foldl sha256Round st).length = st.length := by
  induction l generalizing st with
  | nil => rfl
  | cons kw l ih => rw [List.foldl_cons, ih, sha256Round_length]

theorem sha256Block_length (h : List Nat) (b : List Nat) (hh : h.length = 8) :
    (sha256Block h b).length = 8 := by
  unfold sha256Block
  rw [List.length_zipWith, foldl_sha256Round_length, hh, Nat.min_self]

theorem foldl_sha256Block_length (blocks : List (List Nat)) (h : List Nat)
    (hh : h.length = 8) : (blocks.foldl sha256Block h).length = 8 := by
  induction blocks generalizing h with
  | nil => exact hh
  | cons b blocks ih => rw [List.foldl_cons]; exact ih _ (sha256Block_length h b hh)

theorem sha256hexChars_length (msg : List Nat) : (sha256hexChars msg).length = 64 := by
  unfold sha256hexChars
  rw [List.length_flatten, List.map_map]
  have h8 : ((splitBlocks (padMessage msg)).foldl sha256Block sha256H0).length = 8 :=
    foldl_sha256Block_length _ _ rfl
  have : (List.length ∘ hex8) = fun _ : Nat => 8 := funext fun n => hex8_length n
  rw [this, List.map_const', h8]
  rfl

theorem sha256hexChars_mem {msg : List Nat} {c : Char} (hc : c ∈ sha256hexChars msg) :
    c ∈ hexAlphabet := by
  unfold sha256hexChars at hc
  obtain ⟨block, hb, hcb⟩ := List.mem_flatten.mp hc
  obtain ⟨n, _, rfl⟩ := List.mem_map.mp hb
  exact hex8_mem hcb

theorem sha256_16_length (s : String) : (sha256_16 s).length = 16 := by
  show ((sha256hexChars (utf8 s)).take 16).length = 16
  rw [List.length_take, sha256hexChars_length]
  rfl

theorem sha256_16_mem {s : String} {c : Char} (hc : c ∈ (sha256_16 s).data) :
    c ∈ hexAlphabet :=
  sha256hexChars_mem (List.take_subset 16 _ hc)

theorem compute_hash_eq (c : AgentCheckpoint) :
    c.compute_hash = sha256_16 (Json.dumps (.obj
      [("agent_id", .str c.agent_id), ("sequence", .num c.sequence),
       ("identity", .obj c.identity), ("memory", .obj c.memory),
       ("tasks", .obj c.tasks)])) := rfl

theorem execute_isSome (m : AgentResurrection) (dir : CheckpointsDir) (task : Json)
    (now : String) (wf : WriteFlags) :
    (m.execute dir task now wf).2.isSome = (m.checkpoint dir now wf).2.isSome := by
  show ((m.checkpoint dir now wf).2.map _).isSome = (m.checkpoint dir now wf).2.isSome
  cases (m.checkpoint dir now wf).2 <;> rfl

/-! ### Concrete sample values used by witnesses and counterexamples -/

def sampleDir : CheckpointsDir := ⟨[], []⟩

def sampleMgr : AgentResurrection := .mk' none "a"

/-- The record the fresh manager `sampleMgr` checkpoints at time `"T"`. -/
def sampleRecord : AgentCheckpoint := sampleMgr.checkpointRecord "T"

/-- The same record as returned to the caller: locator map filled in. -/
def sampleSaved : AgentCheckpoint :=
  { sampleRecord with storage := tierLocators sampleRecord }

/-- A record whose stored `state_hash` is not its recomputed hash. -/
def tamperedRecord : AgentCheckpoint :=
  { agent_id := "a", sequence := 0, timestamp := "T", state_hash := "0000000000000000",
    identity := [], memory := [], tasks := [], context := [], storage := [] }

/-- A record at sequence 5, for resurrection scenarios. -/
def sampleRecord5 : AgentCheckpoint := { sampleRecord with sequence := 5 }

/-- A directory whose hot file for `"a"` is the sequence-5 record. -/
def dirAt5 : CheckpointsDir := ⟨[("a", sampleRecord5)], []⟩

/-- An attached executor exposing its own non-default state. -/
def sampleExecutor : Executor :=
  { run := some (fun t => t),
    exposed_identity := [("k", .str "v")],
    exposed_memory := [("m", .num 1)],
    exposed_tasks := [("t", .num 2)],
    exposed_context := [("c", .num 3)] }

def sampleOps : List LifecycleOp :=
  [.exec (.str "t") "T0" ⟨true, true⟩, .hib "T1" ⟨true, true⟩, .res,
   .exec (.str "u") "T2" ⟨true, true⟩]

def sampleOps1 : List LifecycleOp := [.exec (.str "t") "T" ⟨true, true⟩]

set_option maxRecDepth 100000

/-! ### Claims -/

/-- C1: the claim states that `load_checkpoint` verifies the loaded
record's `state_hash` against a freshly recomputed hash and raises an
IntegrityError on mismatch. The code performs no verification at all:
at this concrete storage state it returns a record whose stored hash
differs from its recomputed hash instead of raising. -/
theorem C1_load_returns_unverified_record :
    (DecentralizedStorage.mk [("a", tamperedRecord)]).load_checkpoint sampleDir "a" =
      some tamperedRecord ∧
    tamperedRecord.state_hash ≠ tamperedRecord.compute_hash :=
  ⟨rfl, by decide⟩

/-- C3 counterexample: with an empty in-memory cache and no hot file but a
non-empty archival (cold) tier, `load_checkpoint` returns NotFound instead
of the archival tier's highest-sequence entry, contradicting the claim. -/
theorem C3_counterexample :
    DecentralizedStorage.init.load_checkpoint ⟨[], [(("a", 0), sampleRecord)]⟩ "a" = none ∧
    lookupKey (⟨[], [(("a", 0), sampleRecord)]⟩ : CheckpointsDir).cold_files ("a", 0) =
      some sampleRecord :=
  ⟨rfl, rfl⟩

/-- C3 (amended): `load_checkpoint` consults the in-memory hot cache
first and falls back to the persisted hot file; the archival (cold) tier
is never consulted — the result is independent of the cold tier's
contents, and when neither hot source has an entry the result is NotFound
even if archival entries exist. -/
theorem C3_load_consults_hot_tiers_only :
    (∀ (st : DecentralizedStorage) (dir : CheckpointsDir)
        (cold : List ((String × Nat) × AgentCheckpoint)) (aid : String),
        st.load_checkpoint ⟨dir.hot_files, cold⟩ aid = st.load_checkpoint dir aid) ∧
    (∀ (st : DecentralizedStorage) (dir : CheckpointsDir) (aid : String),
        lookupKey st.hot_cache aid = none → lookupKey dir.hot_files aid = none →
        st.load_checkpoint dir aid = none) ∧
    (∀ (st : DecentralizedStorage) (dir : CheckpointsDir) (aid : String) (c : AgentCheckpoint),
        lookupKey st.hot_cache aid = some c → st.load_checkpoint dir aid = some c) ∧
    (∀ (st : DecentralizedStorage) (dir : CheckpointsDir) (aid : String) (c : AgentCheckpoint),
        lookupKey st.hot_cache aid = none → lookupKey dir.hot_files aid = some c →
        st.load_checkpoint dir aid = some c) := by
  refine ⟨?_, ?_, ?_, ?_⟩
  · intro st dir cold aid
    unfold DecentralizedStorage.load_checkpoint
    cases lookupKey st.hot_cache aid <;> rfl
  · intro st dir aid h₁ h₂
    unfold DecentralizedStorage.load_checkpoint
    rw [h₁, h₂]
  · intro st dir aid c h₁
    unfold DecentralizedStorage.load_checkpoint
    rw [h₁]
  · intro st dir aid c h₁ h₂
    unfold DecentralizedStorage.load_checkpoint
    rw [h₁, h₂]

/-- C3 witness: the amended behaviour at concrete states. -/
theorem C3_witness :
    DecentralizedStorage.init.load_checkpoint sampleDir "a" = none ∧
    (DecentralizedStorage.mk [("a", sampleRecord)]).load_checkpoint sampleDir "a" =
      some sampleRecord ∧
    DecentralizedStorage.init.load_checkpoint ⟨[("a", sampleRecord5)], []⟩ "a" =
      some sampleRecord5 :=
  ⟨C3_load_consults_hot_tiers_only.2.1 _ _ _ rfl rfl,
   C3_load_consults_hot_tiers_only.2.2.1 _ sampleDir _ _ rfl,
   C3_load_consults_hot_tiers_only.2.2.2 _ _ _ _ rfl rfl⟩

/-- C4 counterexample: with `sampleExecutor` attached, `checkpoint`
produces exactly the record it produces with no executor attached — the
empty/default snapshot — and its `memory` field carries the placeholder
keys, not the executor's exposed memory. So the snapshot is not a function
of the attached executor's state, and the default snapshot is not limited
to the executor-less case. -/
theorem C4_counterexample :
    ((AgentResurrection.mk' (some sampleExecutor) "a").checkpoint sampleDir "T"
        ⟨true, true⟩).2 =
      ((AgentResurrection.mk' none "a").checkpoint sampleDir "T" ⟨true, true⟩).2 ∧
    (((AgentResurrection.mk' (some sampleExecutor) "a").checkpoint sampleDir "T"
        ⟨true, true⟩).2).map (fun c => c.memory.map Prod.fst) =
      some ["short_term", "checksum"] ∧
    sampleExecutor.exposed_memory.map Prod.fst = ["m"] :=
  ⟨rfl, rfl, rfl⟩

/-- C4 (amended): every checkpoint's `identity`/`memory`/`tasks`/`context`
are fixed placeholder values computed only from the manager's `agent_id`
and `sequence`; the attached executor is never consulted, and the same
default snapshot is produced whether or not an executor is attached. -/
theorem C4_checkpoint_snapshots_are_placeholders (m : AgentResurrection)
    (dir : CheckpointsDir) (now : String) (wf : WriteFlags) (e : Executor) :
    (({ m with agent := some e }).checkpoint dir now wf).2 =
      (({ m with agent := none }).checkpoint dir now wf).2 ∧
    (({ m with agent := some e }).checkpoint dir now wf).1.2 =
      (({ m with agent := none }).checkpoint dir now wf).1.2 ∧
    (({ m with agent := some e }).checkpoint dir now wf).1.1.sequence =
      (({ m with agent := none }).checkpoint dir now wf).1.1.sequence ∧
    (m.checkpointRecord now).identity =
      [("public_key", .str ("pk_" ++ m.agent_id)), ("address", .str m.agent_id)] ∧
    (m.checkpointRecord now).memory =
      [("short_term", .arr []), ("checksum", .str memoryChecksum)] ∧
    (m.checkpointRecord now).tasks = [("active", .arr []), ("queued", .arr [])] ∧
    (m.checkpointRecord now).context = [("session_id", .str ("sess_" ++ toString m.sequence))] := by
  obtain ⟨ho, co⟩ := wf
  cases ho
  · rw [checkpoint_hotfail, checkpoint_hotfail]
    exact ⟨rfl, rfl, rfl, rfl, rfl, rfl, rfl⟩
  · cases co
    · rw [checkpoint_coldfail, checkpoint_coldfail]
      exact ⟨rfl, rfl, rfl, rfl, rfl, rfl, rfl⟩
    · rw [checkpoint_ok, checkpoint_ok]
      exact ⟨rfl, rfl, rfl, rfl, rfl, rfl, rfl⟩

/-- C6 counterexample: a record whose stored hash is not its recomputed
hash saves successfully and loads back unchanged, so the loaded record
fails hash verification — the claim's "passes hash verification" part is
false for such records. -/
theorem C6_counterexample :
    (DecentralizedStorage.init.save_checkpoint sampleDir tamperedRecord ⟨true, true⟩).2 =
      some (tierLocators tamperedRecord) ∧
    (DecentralizedStorage.init.save_checkpoint sampleDir tamperedRecord
        ⟨true, true⟩).1.1.load_checkpoint
      (DecentralizedStorage.init.save_checkpoint sampleDir tamperedRecord ⟨true, true⟩).1.2
      "a" = some tamperedRecord ∧
    tamperedRecord.state_hash ≠ tamperedRecord.compute_hash :=
  ⟨rfl, rfl, by decide⟩

/-- C6 (amended): for every record whose stored `state_hash` equals its
recomputed hash (as holds for every record `checkpoint` builds), a
successful save followed by a load of its agent id returns the record
itself — equal in every field, `storage_locations` included — and the
returned record passes hash verification. -/
theorem C6_round_trip (st : DecentralizedStorage) (dir : CheckpointsDir)
    (r : AgentCheckpoint) (hr : r.state_hash = r.compute_hash) :
    (st.save_checkpoint dir r ⟨true, true⟩).2.isSome = true ∧
    (st.save_checkpoint dir r ⟨true, true⟩).1.1.load_checkpoint
      (st.save_checkpoint dir r ⟨true, true⟩).1.2 r.agent_id = some r ∧
    ∀ c, (st.save_checkpoint dir r ⟨true, true⟩).1.1.load_checkpoint
        (st.save_checkpoint dir r ⟨true, true⟩).1.2 r.agent_id = some c →
      c.state_hash = c.compute_hash := by
  rw [save_checkpoint_ok]
  have hload : (⟨setKey st.hot_cache r.agent_id r⟩ :
      DecentralizedStorage).load_checkpoint
      ⟨setKey dir.hot_files r.agent_id r, setKey dir.cold_files (r.agent_id, r.sequence) r⟩
      r.agent_id = some r := by
    unfold DecentralizedStorage.load_checkpoint
    rw [lookupKey_setKey_self]
  refine ⟨rfl, hload, ?_⟩
  intro c hc
  rw [hload] at hc
  obtain rfl : r = c := Option.some.inj hc
  exact hr

/-- C6 witness: the amended round trip at a concrete valid record. -/
theorem C6_witness :
    (DecentralizedStorage.init.save_checkpoint sampleDir sampleRecord
        ⟨true, true⟩).1.1.load_checkpoint
      (DecentralizedStorage.init.save_checkpoint sampleDir sampleRecord ⟨true, true⟩).1.2
      sampleRecord.agent_id = some sampleRecord :=
  (C6_round_trip DecentralizedStorage.init sampleDir sampleRecord rfl).2.1

/-- C8 counterexample: a save whose hot-file write fails raises (returns
no locator map) and writes nothing to the files, yet the new record was
already placed in the in-memory fast tier, so a subsequent load on the
same storage instance observes the partially-applied save. -/
theorem C8_counterexample :
    (DecentralizedStorage.init.save_checkpoint sampleDir sampleRecord ⟨false, false⟩).2 =
      none ∧
    (DecentralizedStorage.init.save_checkpoint sampleDir sampleRecord
        ⟨false, false⟩).1.1.load_checkpoint
      (DecentralizedStorage.init.save_checkpoint sampleDir sampleRecord ⟨false, false⟩).1.2
      "a" = some sampleRecord ∧
    (DecentralizedStorage.init.save_checkpoint sampleDir sampleRecord ⟨false, false⟩).1.2 =
      sampleDir :=
  ⟨rfl, rfl, rfl⟩

/-- C8 (amended): if any tier write fails, `save_checkpoint` fails as a
whole and never returns a locator map missing a tier's entry (a returned
map is always the complete four-tier map, and a map is returned exactly
when both file writes succeed); however the in-memory fast tier is
updated before the file writes, so a failed save still leaves the new
record visible to subsequent loads on the same storage instance. -/
theorem C8_save_fails_as_a_whole (st : DecentralizedStorage) (dir : CheckpointsDir)
    (c : AgentCheckpoint) (wf : WriteFlags) :
    (∀ locs, (st.save_checkpoint dir c wf).2 = some locs →
        locs = tierLocators c ∧
        locs.map Prod.fst = ["hot", "cold", "ipfs", "arweave"]) ∧
    ((st.save_checkpoint dir c wf).2.isSome = true ↔
        wf.hot_file_ok = true ∧ wf.cold_file_ok = true) ∧
    (st.save_checkpoint dir c wf).1.1.hot_cache = setKey st.hot_cache c.agent_id c ∧
    ((st.save_checkpoint dir c wf).2 = none →
        (st.save_checkpoint dir c wf).1.1.load_checkpoint
          (st.save_checkpoint dir c wf).1.2 c.agent_id = some c) := by
  obtain ⟨ho, co⟩ := wf
  cases ho <;> cases co
  · rw [save_checkpoint_hotfail]
    refine ⟨fun locs h => absurd h (by simp), by simp, rfl, ?_⟩
    intro _
    unfold DecentralizedStorage.load_checkpoint
    rw [lookupKey_setKey_self]
  · rw [save_checkpoint_hotfail]
    refine ⟨fun locs h => absurd h (by simp), by simp, rfl, ?_⟩
    intro _
    unfold DecentralizedStorage.load_checkpoint
    rw [lookupKey_setKey_self]
  · rw [save_checkpoint_coldfail]
    refine ⟨fun locs h => absurd h (by simp), by simp, rfl, ?_⟩
    intro _
    unfold DecentralizedStorage.load_checkpoint
    rw [lookupKey_setKey_self]
  · rw [save_checkpoint_ok]
    refine ⟨?_, by simp, rfl, ?_⟩
    · intro locs h
      obtain rfl : tierLocators c = locs := Option.some.inj h
      exact ⟨rfl, rfl⟩
    · intro h
      exact absurd h (by simp)

/-- C8 witness: the amended behaviour at a concrete state, both for a
successful save and for a failing one. -/
theorem C8_witness :
    ((DecentralizedStorage.init.save_checkpoint sampleDir sampleRecord
        ⟨true, true⟩).2.isSome = true ↔
      (true = true ∧ true = true)) ∧
    ((DecentralizedStorage.init.save_checkpoint sampleDir sampleRecord ⟨false, true⟩).2 =
        none →
      (DecentralizedStorage.init.save_checkpoint sampleDir sampleRecord
          ⟨false, true⟩).1.1.load_checkpoint
        (DecentralizedStorage.init.save_checkpoint sampleDir sampleRecord ⟨false, true⟩).1.2
        sampleRecord.agent_id = some sampleRecord) :=
  ⟨(C8_save_fails_as_a_whole DecentralizedStorage.init sampleDir sampleRecord
      ⟨true, true⟩).2.1,
   (C8_save_fails_as_a_whole DecentralizedStorage.init sampleDir sampleRecord
      ⟨false, true⟩).2.2.2⟩

/-- C2: along any single-agent lifecycle trace (any interleaving of
`execute`, `hibernate` and `resurrect`, with writes allowed to fail at any
step), the sequence numbers of the produced checkpoints are strictly
increasing in creation order; and every successful `checkpoint` call
persists the manager's current sequence (to the hot and cold tiers) and
then increments the counter by exactly 1. -/
theorem C2_sequences_strictly_increasing :
    (∀ (aid : String) (ops : List LifecycleOp),
        ((runOps (initTrace aid) ops).produced).Pairwise
          (fun a b => a.sequence < b.sequence)) ∧
    (∀ (m : AgentResurrection) (dir : CheckpointsDir) (now : String) (wf : WriteFlags)
        (c : AgentCheckpoint), (m.checkpoint dir now wf).2 = some c →
        c.sequence = m.sequence ∧
        (m.checkpoint dir now wf).1.1.sequence = m.sequence + 1 ∧
        lookupKey (m.checkpoint dir now wf).1.2.hot_files m.agent_id =
          some (m.checkpointRecord now) ∧
        lookupKey (m.checkpoint dir now wf).1.2.cold_files (m.agent_id, m.sequence) =
          some (m.checkpointRecord now)) := by
  constructor
  · intro aid ops
    exact (seqInv_runOps aid (initTrace aid) ops (seqInv_init aid)).2.1
  · intro m dir now wf c h
    obtain ⟨ho, co⟩ := wf
    cases ho
    · rw [checkpoint_hotfail] at h
      exact absurd h (by simp)
    · cases co
      · rw [checkpoint_coldfail] at h
        exact absurd h (by simp)
      · rw [checkpoint_ok] at h ⊢
        obtain rfl : { m.checkpointRecord now with
            storage := tierLocators (m.checkpointRecord now) } = c := Option.some.inj h
        exact ⟨rfl, rfl, lookupKey_setKey_self _ _ _, lookupKey_setKey_self _ _ _⟩

/-- C2 witness: the trace order property at a concrete four-step trace
and the per-call property at a concrete successful checkpoint. -/
theorem C2_witness :
    ((runOps (initTrace "a") sampleOps).produced).Pairwise
      (fun a b => a.sequence < b.sequence) ∧
    (sampleSaved.sequence = sampleMgr.sequence ∧
     (sampleMgr.checkpoint sampleDir "T" ⟨true, true⟩).1.1.sequence =
       sampleMgr.sequence + 1 ∧
     lookupKey (sampleMgr.checkpoint sampleDir "T" ⟨true, true⟩).1.2.hot_files
       sampleMgr.agent_id = some (sampleMgr.checkpointRecord "T") ∧
     lookupKey (sampleMgr.checkpoint sampleDir "T" ⟨true, true⟩).1.2.cold_files
       (sampleMgr.agent_id, sampleMgr.sequence) = some (sampleMgr.checkpointRecord "T")) :=
  ⟨C2_sequences_strictly_increasing.1 "a" sampleOps,
   C2_sequences_strictly_increasing.2 sampleMgr sampleDir "T" ⟨true, true⟩ sampleSaved rfl⟩

/-- C5: whenever the latest stored checkpoint for an agent (the record a
fresh storage instance's `load_checkpoint` returns) has sequence `n`,
resurrection (`AgentResurrection.load`) produces a manager bound to the
same agent id with counter `n + 1`, and its next `execute` persists a
checkpoint with sequence exactly `n + 1` to both file tiers. -/
theorem C5_resurrect_continues_sequence (dir : CheckpointsDir) (aid : String)
    (c : AgentCheckpoint)
    (h : DecentralizedStorage.init.load_checkpoint dir aid = some c)
    (task : Json) (now : String) :
    ∃ m, AgentResurrection.load dir aid = some m ∧ m.agent_id = aid ∧
      m.sequence = c.sequence + 1 ∧
      (m.execute dir task now ⟨true, true⟩).2.isSome = true ∧
      (m.checkpointRecord now).sequence = c.sequence + 1 ∧
      lookupKey (m.execute dir task now ⟨true, true⟩).1.2.hot_files aid =
        some (m.checkpointRecord now) ∧
      lookupKey (m.execute dir task now ⟨true, true⟩).1.2.cold_files (aid, c.sequence + 1) =
        some (m.checkpointRecord now) := by
  have h' : lookupKey dir.hot_files aid = some c := h
  refine ⟨{ agent := none, agent_id := aid, storage := DecentralizedStorage.init,
            checkpoint_interval := 300, sequence := c.sequence + 1,
            checkpoints_saved := 0 }, ?_, rfl, rfl, ?_, rfl, ?_, ?_⟩
  · rw [load_eq, h']
    rfl
  · rw [execute_isSome, checkpoint_ok]
    rfl
  · rw [execute_state, checkpoint_ok]
    exact lookupKey_setKey_self _ _ _
  · rw [execute_state, checkpoint_ok]
    exact lookupKey_setKey_self _ _ _

/-- C5 witness: resurrection from a concrete sequence-5 hot file. -/
theorem C5_witness :
    ∃ m, AgentResurrection.load dirAt5 "a" = some m ∧ m.agent_id = "a" ∧
      m.sequence = sampleRecord5.sequence + 1 ∧
      (m.execute dirAt5 (.str "t") "U" ⟨true, true⟩).2.isSome = true ∧
      (m.checkpointRecord "U").sequence = sampleRecord5.sequence + 1 ∧
      lookupKey (m.execute dirAt5 (.str "t") "U" ⟨true, true⟩).1.2.hot_files "a" =
        some (m.checkpointRecord "U") ∧
      lookupKey (m.execute dirAt5 (.str "t") "U" ⟨true, true⟩).1.2.cold_files
        ("a", sampleRecord5.sequence + 1) = some (m.checkpointRecord "U") :=
  C5_resurrect_continues_sequence dirAt5 "a" sampleRecord5 rfl (.str "t") "U"

/-- C7: `compute_hash` is a deterministic function of exactly
`agent_id`, `sequence`, `identity`, `memory` and `tasks` — two records
agreeing on those fields up to the internal key order of the three dicts
(keys distinct, as in a Python dict) hash identically, whatever their
`timestamp`, `context` and `storage_locations` — and the digest is 16
lower-case hexadecimal characters. -/
theorem C7_compute_hash_canonical (r₁ r₂ : AgentCheckpoint)
    (hid : r₁.agent_id = r₂.agent_id) (hseq : r₁.sequence = r₂.sequence)
    (hI : r₁.identity.Perm r₂.identity) (hM : r₁.memory.Perm r₂.memory)
    (hT : r₁.tasks.Perm r₂.tasks)
    (hIn : (r₁.identity.map Prod.fst).Nodup) (hMn : (r₁.memory.map Prod.fst).Nodup)
    (hTn : (r₁.tasks.map Prod.fst).Nodup) :
    r₁.compute_hash = r₂.compute_hash ∧
    r₁.compute_hash.length = 16 ∧
    ∀ ch ∈ r₁.compute_hash.data, ch ∈ hexAlphabet := by
  refine ⟨compute_hash_perm r₁ r₂ hid hseq hI hM hT hIn hMn hTn, ?_, ?_⟩
  · rw [compute_hash_eq]
    exact sha256_16_length _
  · intro ch hc
    rw [compute_hash_eq] at hc
    exact sha256_16_mem hc

/-- A record with placeholder content, for the hash-canonicity witness. -/
def c7rec1 : AgentCheckpoint :=
  { agent_id := "a", sequence := 2, timestamp := "T1", state_hash := "x",
    identity := [("public_key", .str "pk"), ("address", .str "ad")],
    memory := [("short_term", .arr []), ("checksum", .str "c")],
    tasks := [("active", .arr []), ("queued", .arr [])],
    context := [("s", .str "1")], storage := [] }

/-- The same semantic content as `c7rec1` with every dict's key order
permuted and different timestamp, context and storage locators. -/
def c7rec2 : AgentCheckpoint :=
  { agent_id := "a", sequence := 2, timestamp := "T2", state_hash := "y",
    identity := [("address", .str "ad"), ("public_key", .str "pk")],
    memory := [("checksum", .str "c"), ("short_term", .arr [])],
    tasks := [("queued", .arr []), ("active", .arr [])],
    context := [("other", .num 9)], storage := [("hot", "somewhere")] }

/-- C7 witness: the canonical-hash property at two concrete records that
differ in key order, timestamp, context and storage locators. -/
theorem C7_witness :
    c7rec1.compute_hash = c7rec2.compute_hash ∧
    c7rec1.compute_hash.length = 16 ∧
    ∀ ch ∈ c7rec1.compute_hash.data, ch ∈ hexAlphabet :=
  C7_compute_hash_canonical c7rec1 c7rec2 rfl rfl
    (List.Perm.swap _ _ _) (List.Perm.swap _ _ _) (List.Perm.swap _ _ _)
    (by decide) (by decide) (by decide)

/-- C9: along any lifecycle trace, every record copy persisted to any
tier (the in-memory hot cache, the hot file, the cold file) has an empty
`storage` map — the record is serialised before the locator map is
assigned — so any record `load_checkpoint` returns in a reachable state
has empty `storage_locations`, while the record `checkpoint` returns to
its caller carries the populated four-tier locator map. -/
theorem C9_persisted_copies_have_empty_storage :
    (∀ (aid : String) (ops : List LifecycleOp), StoredEmpty (runOps (initTrace aid) ops)) ∧
    (∀ (aid : String) (ops : List LifecycleOp) (aid' : String) (c : AgentCheckpoint),
        (runOps (initTrace aid) ops).mgr.storage.load_checkpoint
          (runOps (initTrace aid) ops).dir aid' = some c →
        c.storage = []) ∧
    (∀ (m : AgentResurrection) (dir : CheckpointsDir) (now : String) (wf : WriteFlags)
        (c : AgentCheckpoint), (m.checkpoint dir now wf).2 = some c →
        c.storage = tierLocators (m.checkpointRecord now) ∧
        c.storage.map Prod.fst = ["hot", "cold", "ipfs", "arweave"]) := by
  refine ⟨?_, ?_, ?_⟩
  · intro aid ops
    exact storedEmpty_runOps (initTrace aid) ops (storedEmpty_init aid)
  · intro aid ops aid' c h
    have hse := storedEmpty_runOps (initTrace aid) ops (storedEmpty_init aid)
    unfold DecentralizedStorage.load_checkpoint at h
    cases hcache : lookupKey (runOps (initTrace aid) ops).mgr.storage.hot_cache aid' with
    | some x =>
        rw [hcache] at h
        obtain rfl : x = c := Option.some.inj h
        exact hse.1 _ (lookupKey_mem hcache)
    | none =>
        rw [hcache] at h
        exact hse.2.1 _ (lookupKey_mem h)
  · intro m dir now wf c h
    obtain ⟨ho, co⟩ := wf
    cases ho
    · rw [checkpoint_hotfail] at h
      exact absurd h (by simp)
    · cases co
      · rw [checkpoint_coldfail] at h
        exact absurd h (by simp)
      · rw [checkpoint_ok] at h
        obtain rfl : { m.checkpointRecord now with
            storage := tierLocators (m.checkpointRecord now) } = c := Option.some.inj h
        exact ⟨rfl, rfl⟩

/-- C9 witness: a concrete one-step trace in which the load returns the
stored copy with empty `storage`, and a concrete checkpoint whose
returned record carries the populated locator map. -/
theorem C9_witness :
    StoredEmpty (runOps (initTrace "a") sampleOps1) ∧
    sampleRecord.storage = [] ∧
    (sampleSaved.storage = tierLocators (sampleMgr.checkpointRecord "T") ∧
     sampleSaved.storage.map Prod.fst = ["hot", "cold", "ipfs", "arweave"]) :=
  ⟨C9_persisted_copies_have_empty_storage.1 "a" sampleOps1,
   C9_persisted_copies_have_empty_storage.2.1 "a" sampleOps1 "a" sampleRecord rfl,
   C9_persisted_copies_have_empty_storage.2.2 sampleMgr sampleDir "T" ⟨true, true⟩
     sampleSaved rfl⟩

/-- C10: `hibernate` is exactly the `checkpoint` state update (it persists
the current sequence and increments the counter by 1) and does not disable
the instance: an `execute` issued after a successful hibernation on the
same instance succeeds and persists a checkpoint whose sequence is the
hibernation checkpoint's sequence plus 1. -/
theorem C10_hibernate_keeps_instance_alive (m : AgentResurrection) (dir : CheckpointsDir)
    (now now₂ : String) (task : Json) (wf : WriteFlags) :
    m.hibernate dir now wf = m.checkpoint dir now wf ∧
    ∀ m' dir' c, m.hibernate dir now ⟨true, true⟩ = ((m', dir'), some c) →
      m'.sequence = c.sequence + 1 ∧
      (m'.execute dir' task now₂ ⟨true, true⟩).2.isSome = true ∧
      (m'.checkpointRecord now₂).sequence = c.sequence + 1 ∧
      lookupKey (m'.execute dir' task now₂ ⟨true, true⟩).1.2.cold_files
        (m.agent_id, c.sequence + 1) = some (m'.checkpointRecord now₂) := by
  refine ⟨rfl, ?_⟩
  intro m' dir' c h
  rw [hibernate_eq_checkpoint, checkpoint_ok] at h
  obtain ⟨h1, h2⟩ := Prod.mk.injEq _ _ _ _ ▸ h
  obtain ⟨hm, hd⟩ := Prod.mk.injEq _ _ _ _ ▸ h1
  obtain rfl : { m.checkpointRecord now with
      storage := tierLocators (m.checkpointRecord now) } = c := Option.some.inj h2
  subst hm hd
  refine ⟨rfl, ?_, rfl, ?_⟩
  · rw [execute_isSome, checkpoint_ok]
    rfl
  · rw [execute_state, checkpoint_ok]
    exact lookupKey_setKey_self _ _ _

/-- C10 witness: hibernate then execute at a concrete fresh manager;
the post-hibernation execute persists sequence 1 = 0 + 1. -/
theorem C10_witness :
    ((sampleMgr.hibernate sampleDir "T" ⟨true, true⟩).1.1.sequence =
      sampleSaved.sequence + 1) ∧
    ((sampleMgr.hibernate sampleDir "T" ⟨true, true⟩).1.1.execute
        (sampleMgr.hibernate sampleDir "T" ⟨true, true⟩).1.2 (.str "t") "U"
        ⟨true, true⟩).2.isSome = true ∧
    (((sampleMgr.hibernate sampleDir "T" ⟨true, true⟩).1.1.checkpointRecord "U").sequence =
      sampleSaved.sequence + 1) ∧
    lookupKey ((sampleMgr.hibernate sampleDir "T" ⟨true, true⟩).1.1.execute
        (sampleMgr.hibernate sampleDir "T" ⟨true, true⟩).1.2 (.str "t") "U"
        ⟨true, true⟩).1.2.cold_files
      (sampleMgr.agent_id, sampleSaved.sequence + 1) =
      some ((sampleMgr.hibernate sampleDir "T" ⟨true, true⟩).1.1.checkpointRecord "U") :=
  (C10_hibernate_keeps_instance_alive sampleMgr sampleDir "T" "U" (.str "t")
      ⟨true, true⟩).2
    (sampleMgr.hibernate sampleDir "T" ⟨true, true⟩).1.1
    (sampleMgr.hibernate sampleDir "T" ⟨true, true⟩).1.2
    sampleSaved rfl

end ARP
